import Mathlib

/-!
Shallow embedding of `exporter/awsxrayexporter/internal/translator/cause.go`
(package `translator`): the `makeCause` span-to-X-Ray-cause translation and
its five stack-trace parsers.

Modelling conventions:
* Go strings are byte sequences; all inputs of interest are ASCII, so a Go
  string is modelled as `List Char` (`GoStr`) and Go byte indices coincide
  with list indices.
* A Go runtime panic (out-of-range string/slice index) is modelled as
  `Option.none`; every Go slice expression `s[a:b]` is modelled by the
  bounds-checked `goSlice`, which returns `none` exactly when Go panics.
* `textproto.Reader.ReadLine` over `strings.NewReader` is modelled by
  `readLines`: split on newline bytes, drop one carriage return before each
  newline, and a final unterminated segment is still one line; reading past
  the end yields the empty string together with an error.
* The global random segment-id generator (`newSegmentID().HexString()`) is
  modelled as explicit state `IdState`: an arbitrary stream `gen : Nat → GoStr`
  plus a cursor, threaded through every function that draws fresh ids.
* Loops are written as fuel-indexed structural recursions; each loop consumes
  at least one input line per iteration (or terminates), and the fuel passed
  at every call site (number of remaining lines plus one) is enough that the
  fuel-exhaustion branch is never the deciding one.
* `strconv.Atoi` with its error ignored is `goAtoi` (0 on any syntax error);
  integer overflow clamping of 64-bit `Atoi` is not modelled (line numbers in
  scope are small).
-/

namespace XRayCause

/-- A Go string as a list of (ASCII) characters. -/
abbrev GoStr := List Char

/-- Go slice expression `s[a:b]`; `none` models the runtime panic that Go
raises when the bounds are out of range. -/
def goSlice {α : Type} (s : List α) (a b : Nat) : Option (List α) :=
  if a ≤ b ∧ b ≤ s.length then some ((s.take b).drop a) else none

/-- Go slice expression `s[a:]`. -/
def goSliceFrom {α : Type} (s : List α) (a : Nat) : Option (List α) :=
  goSlice s a s.length

/-- Go slice expression `s[:b]`. -/
def goSliceTo {α : Type} (s : List α) (b : Nat) : Option (List α) :=
  goSlice s 0 b

/-- `strings.HasPrefix`. -/
def startsWith (s pre : GoStr) : Bool := pre.isPrefixOf s

/-- `strings.IndexByte` (`none` models Go's `-1`). -/
def indexByte (s : GoStr) (c : Char) : Option Nat :=
  match s with
  | [] => none
  | x :: xs => if x = c then some 0 else (indexByte xs c).map (· + 1)

/-- `strings.LastIndexByte` (`none` models Go's `-1`). -/
def lastIndexByte (s : GoStr) (c : Char) : Option Nat :=
  match s with
  | [] => none
  | x :: xs =>
    match lastIndexByte xs c with
    | some i => some (i + 1)
    | none => if x = c then some 0 else none

/-- `line[len(line)-1] == c` for a string known (or required) to be nonempty;
on the empty string Go would panic, but every use site is guarded by a
nonempty-prefix test, so the `false` default is never the deciding case. -/
def lastIs (s : GoStr) (c : Char) : Bool :=
  match s.getLast? with
  | some x => x = c
  | none => false

/-- `strings.Index` for a substring (`none` models `-1`). -/
def findSub : GoStr → GoStr → Option Nat
  | [], sub => if sub.isEmpty then some 0 else none
  | x :: xs, sub =>
    if sub.isPrefixOf (x :: xs) then some 0
    else (findSub xs sub).map (· + 1)

/-- `strings.Contains`. -/
def containsSub (s sub : GoStr) : Bool := (findSub s sub).isSome

/-- `strings.Split` on a one-byte separator. -/
def splitOnChar (c : Char) : GoStr → List GoStr
  | [] => [[]]
  | x :: xs =>
    if x = c then [] :: splitOnChar c xs
    else
      match splitOnChar c xs with
      | [] => [[x]]
      | p :: ps => (x :: p) :: ps

/-- `strings.Split` on a multi-byte separator, fuelled (the separator used in
this file, `" in "`, is nonempty, so `s.length + 1` rounds of fuel always
suffice). -/
def splitOnSubFuel : Nat → GoStr → GoStr → List GoStr
  | 0, _, s => [s]
  | fuel + 1, sep, s =>
    match findSub s sep with
    | none => [s]
    | some i => s.take i :: splitOnSubFuel fuel sep (s.drop (i + sep.length))

/-- `strings.Split` on a multi-byte separator. -/
def splitOnSub (sep s : GoStr) : List GoStr := splitOnSubFuel (s.length + 1) sep s

/-- `strings.Join(xs, "\n")`. -/
def joinNL : List GoStr → GoStr
  | [] => []
  | [l] => l
  | l :: rest => l ++ '\n' :: joinNL rest

/-- Numeric value of a digit string. -/
def digitsVal (ds : GoStr) : Int :=
  ds.foldl (fun acc c => acc * 10 + Int.ofNat (c.toNat - 48)) 0

/-- `strconv.Atoi` with the error discarded, as in `n, _ = strconv.Atoi(s)`:
optional sign followed by one or more digits yields the signed value, any
syntax error yields 0. -/
def goAtoi (s : GoStr) : Int :=
  match s with
  | [] => 0
  | c :: rest =>
    let neg := c = '-'
    let ds := if c = '-' ∨ c = '+' then rest else s
    if ds ≠ [] ∧ ds.all Char.isDigit then
      if neg then - digitsVal ds else digitsVal ds
    else 0

/-- Drop one trailing carriage return (what `bufio.Reader.ReadLine` does to a
line that was terminated by `"\r\n"`). -/
def stripCR (l : GoStr) : GoStr := if lastIs l '\r' then l.dropLast else l

/-- The sequence of lines that successive `textproto.Reader.ReadLine` calls
yield on the given string: newline-terminated segments with one preceding
carriage return elided, plus a final unterminated nonempty segment. -/
def readLines (s : GoStr) : List GoStr :=
  match (splitOnChar '\n' s).reverse with
  | [] => []
  | last :: revInit =>
    let init := revInit.reverse.map stripCR
    if last = [] then init else init ++ [last]

/-- One `ReadLine` step on the remaining lines: at end of input the line comes
back empty together with the (here implicit) error. -/
def readl : List GoStr → GoStr × List GoStr
  | [] => ([], [])
  | l :: r => (l, r)

/-! ## Data model (`pdata` inputs, `awsxray` outputs) -/

/-- `pdata.AttributeValue`, restricted to the kinds this translator inspects;
`other` stands for every remaining kind (bool, double, map, ...), on which
both accessors return their zero values, as in `pdata`. -/
inductive AttributeValue
  | str (s : GoStr)
  | int (i : Int)
  | other
deriving DecidableEq

/-- `AttributeValue.StringVal`: empty string on a non-string value. -/
def AttributeValue.stringVal : AttributeValue → GoStr
  | .str s => s
  | _ => []

/-- `AttributeValue.IntVal`: zero on a non-int value. -/
def AttributeValue.intVal : AttributeValue → Int
  | .int i => i
  | _ => 0

/-- A `map[string]pdata.AttributeValue` (a Go map has unique keys; the list
order stands for the map's iteration order). -/
abbrev AttrMap := List (GoStr × AttributeValue)

/-- `attributes.Get(key)` / `m.Get(key)`. -/
def attrGet (m : AttrMap) (key : GoStr) : Option AttributeValue :=
  match m with
  | [] => none
  | (k, v) :: rest => if k = key then some v else attrGet rest key

/-- `pdata.StatusCode` (only the error/non-error distinction matters here). -/
inductive StatusCode
  | unset
  | ok
  | error
deriving DecidableEq

/-- A span's status: code and message. -/
structure SpanStatus where
  code : StatusCode
  message : GoStr
deriving DecidableEq

/-- A span event: name and attribute map. -/
structure SpanEvent where
  name : GoStr
  attributes : AttrMap
deriving DecidableEq

/-- The parts of `pdata.Span` that `makeCause` reads. -/
structure Span where
  status : SpanStatus
  events : List SpanEvent
  attributes : AttrMap
deriving DecidableEq

/-- The part of `pdata.Resource` that `makeCause` reads. -/
structure Resource where
  attributes : AttrMap
deriving DecidableEq

/-- `awsxray.StackFrame` (`Path`, `Label`, `Line`). -/
structure StackFrame where
  path : GoStr
  label : GoStr
  line : Int
deriving DecidableEq

/-- `awsxray.Exception`. `stack = none` is a nil Go slice (never allocated);
`some l` is an allocated slice with elements `l`. -/
structure Exception where
  id : GoStr
  typ : GoStr
  message : GoStr
  stack : Option (List StackFrame)
  cause : Option GoStr
deriving DecidableEq

/-- `awsxray.CauseData` in the only form this file builds: `CauseTypeObject`
with an exception list. -/
structure CauseData where
  exceptions : List Exception
deriving DecidableEq

/-- The tuple `makeCause` returns (minus the threaded id-generator state). -/
structure MakeCauseResult where
  isError : Bool
  isFault : Bool
  isThrottle : Bool
  filtered : AttrMap
  cause : Option CauseData
deriving DecidableEq

/-- The global segment-id generator, made explicit: an arbitrary id stream and
a cursor. `newSegmentID().HexString()` consumes the next stream element. -/
structure IdState where
  gen : Nat → GoStr
  next : Nat

/-- `newSegmentID().HexString()`. -/
def freshId (st : IdState) : GoStr × IdState :=
  (st.gen st.next, { st with next := st.next + 1 })

/-! ## Semantic-convention keys and markers -/

def exceptionEventName : GoStr := "exception".data
def keyExceptionType : GoStr := "exception.type".data
def keyExceptionMessage : GoStr := "exception.message".data
def keyExceptionStacktrace : GoStr := "exception.stacktrace".data
def keyTelemetrySDKLanguage : GoStr := "telemetry.sdk.language".data
def keyHTTPStatusCode : GoStr := "http.status_code".data
def keyHTTPStatusText : GoStr := "http.status_text".data

/-! ## Shared exception-list operations

`exception` in the Go parsers is a pointer that starts at `&exceptions[0]` —
the parsers are only ever invoked on the singleton list built by
`parseException`, so it starts at the last element — and after every
`Caused by:`-style append it is moved to the freshly appended record
(`exceptions[len(exceptions)-2]` is then the previously active record).
The active record is therefore always the last element of the list. -/

/-- Apply `f` to the last element of the list (the active exception). -/
def modifyLast (f : Exception → Exception) : List Exception → List Exception
  | [] => []
  | [e] => [f e]
  | e :: rest => e :: modifyLast f rest

/-- `exception.Stack = append(exception.Stack, frame)` on the active record
(Go's `append` on a nil slice allocates, hence the result is always
non-nil). -/
def appendFrameLast (exs : List Exception) (f : StackFrame) : List Exception :=
  modifyLast (fun e => { e with stack := some ((e.stack.getD []) ++ [f]) }) exs

/-- `exception.Stack = make([]awsxray.StackFrame, 0)` on the active record. -/
def initStackLast (exs : List Exception) : List Exception :=
  modifyLast (fun e => { e with stack := some [] }) exs

/-- `exceptions[len(exceptions)-2].Cause = newException.ID` (performed just
before the new record is appended, so here: on the last element). -/
def setCauseLast (exs : List Exception) (newId : GoStr) : List Exception :=
  modifyLast (fun e => { e with cause := some newId }) exs

/-- Append a parsed frame to the active record, or do nothing when the line
did not yield one. -/
def applyFrame (exs : List Exception) : Option StackFrame → List Exception
  | some f => appendFrameLast exs f
  | none => exs

/-! ## `fillJavaStacktrace` (Convention A; also used for php) -/

/-- The peek test inside the `Caused by:` message loop:
`strings.HasPrefix(line, "\tat ") && strings.IndexByte(line, '(') >= 0 &&
line[len(line)-1] == ')'`. -/
def javaFrameShaped (line : GoStr) : Bool :=
  startsWith line "\tat ".data && (indexByte line '(').isSome && lastIs line ')'

/-- The body of the `strings.HasPrefix(line, "\tat ")` branch: extract the
frame of one Java frame line, if the line qualifies (`some none` = line
skipped, outer `none` = panic, which this particular branch never produces
because all its slice bounds are implied by the guards). -/
def javaFrameOf (line : GoStr) : Option (Option StackFrame) :=
  match indexByte line '(' with
  | none => some none
  | some parenIdx =>
    if lastIs line ')' then
      match goSlice line 4 parenIdx with
      | none => none
      | some label0 =>
        let label :=
          match indexByte label0 '/' with
          | some slashIdx => label0.drop (slashIdx + 1)
          | none => label0
        match goSlice line (parenIdx + 1) (line.length - 1) with
        | none => none
        | some path0 =>
          match indexByte path0 ':' with
          | some colonIdx =>
            match goSliceFrom path0 (colonIdx + 1) with
            | none => none
            | some lineStr =>
              match goSliceTo path0 colonIdx with
              | none => none
              | some path => some (some ⟨path, label, goAtoi lineStr⟩)
          | none => some (some ⟨path0, label, 0⟩)
    else some none

/-- Split the text after `"Caused by: "` into (type, start of message):
`causeMessage := causeType[colonIdx+2:]` panics (`none`) when the first colon
is the final character of the text. -/
def causedBySplit (causeType0 : GoStr) : Option (GoStr × GoStr) :=
  match indexByte causeType0 ':' with
  | none => some (causeType0, [])
  | some colonIdx =>
    match goSliceFrom causeType0 (colonIdx + 2) with
    | none => none
    | some m =>
      match goSliceTo causeType0 colonIdx with
      | none => none
      | some t => some (t, m)

/-- The inner `Caused by:` loop: keep reading lines into the message until a
frame-shaped line is peeked (returned as the next line to process) or input
runs out (the failed read leaves the empty string as the current line). -/
def javaInner (msg : GoStr) : List GoStr → GoStr × GoStr × List GoStr
  | [] => (msg, [], [])
  | l :: r => if javaFrameShaped l then (msg, l, r) else javaInner (msg ++ l) r

/-- The main loop of `fillJavaStacktrace` over the remaining lines. Fuel:
every iteration either terminates or consumes at least one line before
recursing, except that after an input-exhausting `Caused by:` the one extra
iteration processes the empty line against the empty rest and terminates —
with the same result the fuel-exhaustion branch yields, so
`rest.length + 1` fuel is exact. -/
def javaLoop : Nat → IdState → List Exception → GoStr → List GoStr →
    Option (List Exception × IdState)
  | 0, st, exs, _, _ => some (exs, st)
  | fuel + 1, st, exs, line, rest =>
    if startsWith line "\tat ".data then
      match javaFrameOf line with
      | none => none
      | some frame =>
        let exs1 := applyFrame exs frame
        match rest with
        | [] => some (exs1, st)
        | l :: r => javaLoop fuel st exs1 l r
    else if startsWith line "Caused by: ".data then
      match goSliceFrom line 11 with
      | none => none
      | some causeType0 =>
        match causedBySplit causeType0 with
        | none => none
        | some (causeType, causeMessage0) =>
          let (causeMessage, line1, rest1) := javaInner causeMessage0 rest
          let (newId, st1) := freshId st
          let exs1 := setCauseLast exs newId ++
            [⟨newId, causeType, causeMessage, some [], none⟩]
          javaLoop fuel st1 exs1 line1 rest1
    else
      match rest with
      | [] => some (exs, st)
      | l :: r => javaLoop fuel st exs l r

/-- `fillJavaStacktrace`: skip the first line (top-level exception restated),
return unchanged if nothing follows, otherwise allocate the active record's
stack and run the loop. -/
def fillJavaStacktrace (stacktrace : GoStr) (exceptions : List Exception)
    (st : IdState) : Option (List Exception × IdState) :=
  match readLines stacktrace with
  | [] => some (exceptions, st)
  | [_] => some (exceptions, st)
  | _ :: line :: rest =>
    javaLoop (rest.length + 1) st (initStackLast exceptions) line rest

/-! ## `fillPythonStacktrace` (Convention B, walked bottom-to-top) -/

def pyFileMarker : GoStr := "  File ".data
def pyDuringMarker : GoStr :=
  "During handling of the above exception, another exception occurred:".data

/-- The `"  File "` branch: a frame line must split on commas into exactly
three parts; `filePart[8 : len(filePart)-1]` panics (`none`) when the part
before the first comma is shorter than nine bytes. -/
def pyFrameOf (line : GoStr) : Option (Option StackFrame) :=
  match splitOnChar ',' line with
  | [p0, p1, p2] =>
    match goSlice p0 8 (p0.length - 1) with
    | none => none
    | some file =>
      let lineNumber : Int :=
        if startsWith p1 " line ".data then goAtoi (p1.drop 6) else 0
      let label : GoStr :=
        if startsWith p2 " in ".data then p2.drop 4 else []
      some (some ⟨file, label, lineNumber⟩)
  | _ => some none

/-- Scan indices `i, i-1, ..., 0` for the nearest preceding `"  File "`
line. -/
def pyFindFile (lines : List GoStr) : Nat → Option Nat
  | 0 => if startsWith (lines.getD 0 []) pyFileMarker then some 0 else none
  | i + 1 =>
    if startsWith (lines.getD (i + 1) []) pyFileMarker then some (i + 1)
    else pyFindFile lines i

/-- The main loop of `fillPythonStacktrace`, walking `lineIdx` downward.
`lineIdx` strictly decreases on every recursive call, so `lineIdx + 1` fuel
always suffices. -/
def pyLoop : Nat → IdState → List GoStr → List Exception → Nat → GoStr →
    Option (List Exception × IdState)
  | 0, st, _, exs, _, _ => some (exs, st)
  | fuel + 1, st, lines, exs, lineIdx, line =>
    if startsWith line pyFileMarker then
      match pyFrameOf line with
      | none => none
      | some frame =>
        let exs1 := applyFrame exs frame
        if lineIdx = 0 then some (exs1, st)
        else pyLoop fuel st lines exs1 (lineIdx - 1) (lines.getD (lineIdx - 1) [])
    else if startsWith line pyDuringMarker then
      if lineIdx = 0 then some (exs, st)
      else
        match pyFindFile lines (lineIdx - 1) with
        | none => some (exs, st)
        | some nextFileLineIdx =>
          match goSlice lines (nextFileLineIdx + 2) (lineIdx - 1) with
          | none => none
          | some msgLines =>
            let message := joinNL msgLines
            match indexByte message ':' with
            | none => some (exs, st)
            | some colonIdx =>
              match goSliceTo message colonIdx with
              | none => none
              | some causeType =>
                match goSliceFrom message (colonIdx + 2) with
                | none => none
                | some causeMessage =>
                  let (newId, st1) := freshId st
                  let exs1 := setCauseLast exs newId ++
                    [⟨newId, causeType, causeMessage, some [], none⟩]
                  pyLoop fuel st1 lines exs1 nextFileLineIdx
                    (lines.getD nextFileLineIdx [])
    else
      if lineIdx = 0 then some (exs, st)
      else pyLoop fuel st lines exs (lineIdx - 1) (lines.getD (lineIdx - 1) [])

/-- `fillPythonStacktrace`: split on `"\n"`, start from the penultimate line
(the last line restates the top exception; fewer than two lines means there
is nothing to walk). -/
def fillPythonStacktrace (stacktrace : GoStr) (exceptions : List Exception)
    (st : IdState) : Option (List Exception × IdState) :=
  let lines := splitOnChar '\n' stacktrace
  if lines.length < 2 then some (exceptions, st)
  else
    let lineIdx := lines.length - 2
    pyLoop (lineIdx + 1) st lines (initStackLast exceptions) lineIdx
      (lines.getD lineIdx [])

/-! ## `fillJavaScriptStacktrace` (Convention C) -/

/-- The `indexOf(str, c, pos)` helper of `cause.go`: first occurrence of `c`
in `str` strictly after position `pos` (`none` in/out models `-1`). -/
def indexOfFrom (str : GoStr) (c : Char) (pos : Option Nat) : Option Nat :=
  match pos with
  | none => none
  | some p => (indexByte (str.drop (p + 1)) c).map (· + p + 1)

/-- Wrap up a JavaScript frame: it is recorded only when at least one of
path/label/line is non-default. -/
def jsMkRes (path label : GoStr) (line : Int) : Option (Option StackFrame) :=
  some (if path ≠ [] ∨ label ≠ [] ∨ line ≠ 0 then some ⟨path, label, line⟩ else none)

/-- The colon/`"native"` post-processing shared by all shapes of a
JavaScript frame line. -/
def jsFrameFinish (label path0 : GoStr) : Option (Option StackFrame) :=
  let colonFirst := indexByte path0 ':'
  let colonSecond := indexOfFrom path0 ':' colonFirst
  match colonFirst, colonSecond with
  | some c1, some c2 =>
    if c1 ≠ c2 then
      match goSlice path0 (c1 + 1) c2 with
      | none => none
      | some lineStr =>
        match goSliceTo path0 c1 with
        | none => none
        | some path1 => jsMkRes path1 label (goAtoi lineStr)
    else jsMkRes path0 label 0
  | some _, none => jsMkRes path0 label 0
  | none, _ =>
    if containsSub path0 "native".data then jsMkRes "native".data label 0
    else jsMkRes path0 label 0

/-- The `strings.HasPrefix(line, "    at ")` branch: with a parenthesised
suffix, label and path are cut around the parentheses; with no `'('` at all,
the whole remainder is the path; a `'('` without a closing `')'` at the end
leaves everything at its defaults. -/
def jsFrameOf (line : GoStr) : Option (Option StackFrame) :=
  match indexByte line '(' with
  | some parenIdx =>
    if lastIs line ')' then
      match goSlice line 7 parenIdx with
      | none => none
      | some label =>
        match goSlice line (parenIdx + 1) (line.length - 1) with
        | none => none
        | some path => jsFrameFinish label path
    else jsFrameFinish [] []
  | none =>
    match goSliceFrom line 7 with
    | none => none
    | some path => jsFrameFinish [] path

/-- Process one line of the JavaScript loop body. -/
def jsStep (exs : List Exception) (line : GoStr) : Option (List Exception) :=
  if startsWith line "    at ".data then
    match jsFrameOf line with
    | none => none
    | some frame => some (applyFrame exs frame)
  else some exs

/-- The main loop of `fillJavaScriptStacktrace`: one line per iteration,
then read the next or stop at end of input. -/
def jsLoop : List Exception → GoStr → List GoStr → Option (List Exception)
  | exs, line, [] => jsStep exs line
  | exs, line, l :: r =>
    match jsStep exs line with
    | none => none
    | some exs1 => jsLoop exs1 l r

/-- `fillJavaScriptStacktrace`. -/
def fillJavaScriptStacktrace (stacktrace : GoStr) (exceptions : List Exception) :
    Option (List Exception) :=
  match readLines stacktrace with
  | [] => some exceptions
  | [_] => some exceptions
  | _ :: line :: rest => jsLoop (initStackLast exceptions) line rest

/-! ## `fillDotnetStacktrace` (Convention D) -/

/-- The `strings.HasPrefix(line, "\tat ")` branch of the dotnet parser.
Panic sites (`none`): `parts[0][len("\tat "):]` when `" in "` begins before
byte 4, and `lineStr[5:]` when the text after the last colon is exactly
`"line"`. -/
def dotnetFrameOf (line : GoStr) : Option (Option StackFrame) :=
  match findSub line " in ".data with
  | some _ =>
    match splitOnSub " in ".data line with
    | p0 :: p1 :: _ =>
      match goSliceFrom p0 4 with
      | none => none
      | some label =>
        match lastIndexByte p1 ':' with
        | some colonIdx =>
          match goSliceFrom p1 (colonIdx + 1) with
          | none => none
          | some lineStr0 =>
            match
              (if startsWith lineStr0 "line".data then goSliceFrom lineStr0 5
               else some lineStr0) with
            | none => none
            | some lineStr =>
              match goSliceTo p1 colonIdx with
              | none => none
              | some path => some (some ⟨path, label, goAtoi lineStr⟩)
        | none => some (some ⟨p1, label, 0⟩)
    | _ => none
  | none =>
    match lastIndexByte line ')' with
    | some idx =>
      match goSlice line 4 (idx + 1) with
      | none => none
      | some label => some (some ⟨[], label, 0⟩)
    | none => some none

/-- Process one line of the dotnet loop body. -/
def dotnetStep (exs : List Exception) (line : GoStr) : Option (List Exception) :=
  if startsWith line "\tat ".data then
    match dotnetFrameOf line with
    | none => none
    | some frame => some (applyFrame exs frame)
  else some exs

/-- The main loop of `fillDotnetStacktrace`: one line per iteration, then
read the next or stop at end of input. -/
def dotnetLoop : List Exception → GoStr → List GoStr → Option (List Exception)
  | exs, line, [] => dotnetStep exs line
  | exs, line, l :: r =>
    match dotnetStep exs line with
    | none => none
    | some exs1 => dotnetLoop exs1 l r

/-- `fillDotnetStacktrace`. -/
def fillDotnetStacktrace (stacktrace : GoStr) (exceptions : List Exception) :
    Option (List Exception) :=
  match readLines stacktrace with
  | [] => some exceptions
  | [_] => some exceptions
  | _ :: line :: rest => dotnetLoop (initStackLast exceptions) line rest

/-! ## `fillGoStacktrace` (Convention E) -/

/-- Go's `\s` character class (`[\t\n\f\r ]`). -/
def isGoSpace (c : Char) : Bool :=
  c = ' ' ∨ c = '\t' ∨ c = '\n' ∨ c = '\x0c' ∨ c = '\r'

/-- The character class `[^:\s]`. -/
def isPlnClass (c : Char) : Bool := ¬ (c = ':') ∧ ¬ isGoSpace c

/-- Try to match `([^:\s]+):(\d+)` anchored at the start of `s`: the class
token is necessarily maximal (shortening it never exposes a colon), the digit
group is the maximal digit run. -/
def plnreTryAt (s : GoStr) : Option (GoStr × GoStr) :=
  let tok := s.takeWhile isPlnClass
  if tok = [] then none
  else
    match s.drop tok.length with
    | ':' :: rest2 =>
      let digs := rest2.takeWhile Char.isDigit
      if digs = [] then none else some (tok, digs)
    | _ => none

/-- `plnre.FindStringSubmatch` for `([^:\s]+)\:(\d+)`: the leftmost match's
two capture groups (`none` when there is no match). -/
def plnreMatch : GoStr → Option (GoStr × GoStr)
  | [] => none
  | c :: rest =>
    match plnreTryAt (c :: rest) with
    | some r => some r
    | none => plnreMatch rest

/-- Go's `\w`/word-boundary character class (`[0-9A-Za-z_]`). -/
def isWordChar (c : Char) : Bool := c.isAlphanum ∨ c = '_'

/-- Whether `^goroutine.*\brunning\b.*:$` matches the line: it starts with
`goroutine`, ends with a colon, and somewhere after the prefix and before the
final colon there is an occurrence of `running` flanked by non-word
characters. -/
def goroutineRe (l : GoStr) : Bool :=
  startsWith l "goroutine".data && lastIs l ':' &&
    (List.range l.length).any fun p =>
      decide (9 ≤ p) && decide (p + 8 ≤ l.length) &&
      startsWith (l.drop p) "running".data &&
      ¬ isWordChar (l.getD (p - 1) ' ') &&
      ¬ isWordChar (l.getD (p + 7) ' ')

/-- The main loop of `fillGoStacktrace`: skip a goroutine header when one is
seen, take one line as the label and scan the next with the path:line
pattern, and emit one frame per pair regardless of whether the pattern
matched, keeping the previous `path`/`lineNumber` values when it did not.
Each iteration that recurses consumes at least one line, so
`rest.length + 1` fuel suffices. -/
def goLoop : Nat → List Exception → GoStr → List GoStr → GoStr → Int →
    List Exception
  | 0, exs, _, _, _, _ => exs
  | fuel + 1, exs, line, rest, path, lineNumber =>
    let (lineA, restA) := if goroutineRe line then readl rest else (line, rest)
    let label := lineA
    let (lineB, restB) := readl restA
    let (path1, lineNumber1) :=
      match plnreMatch lineB with
      | some (p, d) => (p, goAtoi d)
      | none => (path, lineNumber)
    let exs1 := appendFrameLast exs ⟨path1, label, lineNumber1⟩
    match restB with
    | [] => exs1
    | l :: r => goLoop fuel exs1 l r path1 lineNumber1

/-- `fillGoStacktrace` (no slicing, hence no panic: total). -/
def fillGoStacktrace (stacktrace : GoStr) (exceptions : List Exception) :
    List Exception :=
  match readLines stacktrace with
  | [] => exceptions
  | [_] => exceptions
  | _ :: line :: rest => goLoop (rest.length + 1) (initStackLast exceptions) line rest [] 0

/-! ## `parseException` and `makeCause` -/

/-- `parseException`: build the first record from (type, message) with a
fresh id, return it alone on an empty stack trace, otherwise dispatch on the
language (php shares the Java grammar; unrecognized languages return the
single record unchanged). -/
def parseException (exceptionType message stacktrace language : GoStr)
    (st : IdState) : Option (List Exception × IdState) :=
  let (id0, st1) := freshId st
  let exceptions : List Exception := [⟨id0, exceptionType, message, none, none⟩]
  if stacktrace = [] then some (exceptions, st1)
  else if language = "java".data then fillJavaStacktrace stacktrace exceptions st1
  else if language = "python".data then fillPythonStacktrace stacktrace exceptions st1
  else if language = "javascript".data then
    (fillJavaScriptStacktrace stacktrace exceptions).map (fun l => (l, st1))
  else if language = "dotnet".data then
    (fillDotnetStacktrace stacktrace exceptions).map (fun l => (l, st1))
  else if language = "php".data then fillJavaStacktrace stacktrace exceptions st1
  else if language = "go".data then some (fillGoStacktrace stacktrace exceptions, st1)
  else some (exceptions, st1)

/-- The exception-event collection loop of `makeCause`: for every event named
`exception`, read its type/message/stacktrace attributes (empty when absent)
and append the parsed chain. -/
def eventsLoop (language : GoStr) : IdState → List SpanEvent → List Exception →
    Option (List Exception × IdState)
  | st, [], acc => some (acc, st)
  | st, e :: rest, acc =>
    if e.name = exceptionEventName then
      let exceptionType := ((attrGet e.attributes keyExceptionType).map
        AttributeValue.stringVal).getD []
      let message := ((attrGet e.attributes keyExceptionMessage).map
        AttributeValue.stringVal).getD []
      let stacktrace := ((attrGet e.attributes keyExceptionStacktrace).map
        AttributeValue.stringVal).getD []
      match parseException exceptionType message stacktrace language st with
      | none => none
      | some (parsed, st1) => eventsLoop language st1 rest (acc ++ parsed)
    else eventsLoop language st rest acc

/-- The fallback attribute scan of `makeCause` (no exception events): walk
the attribute map, folding `http.status_text` into the message only when the
message is still empty, and copying every other entry into the fresh filtered
map — the `http.status_text` entry itself is never copied. -/
def fallbackScan (message : GoStr) (filtered : AttrMap) : AttrMap →
    GoStr × AttrMap
  | [] => (message, filtered)
  | (k, v) :: rest =>
    if k = keyHTTPStatusText then
      fallbackScan (if message = [] then v.stringVal else message) filtered rest
    else fallbackScan message (filtered ++ [(k, v)]) rest

/-- The error/fault/throttle classification from the span's
`http.status_code` attribute. -/
def httpFlags (span : Span) : Bool × Bool × Bool :=
  match attrGet span.attributes keyHTTPStatusCode with
  | some val =>
    let code := val.intVal
    if 400 ≤ code ∧ code ≤ 499 then (true, false, decide (code = 429))
    else (false, true, false)
  | none => (false, true, false)

/-- The cause-and-filtered-attributes part of `makeCause` for an error span:
either collect and parse the exception events (attributes pass through), or
synthesize at most one exception from the status message /
`http.status_text` fallback. -/
def causePart (span : Span) (attributes : AttrMap) (resource : Resource)
    (st : IdState) : Option (AttrMap × Option CauseData × IdState) :=
  if span.events.any (fun e => e.name = exceptionEventName) then
    let language := ((attrGet resource.attributes keyTelemetrySDKLanguage).map
      AttributeValue.stringVal).getD []
    match eventsLoop language st span.events [] with
    | none => none
    | some (exceptions, st1) => some (attributes, some ⟨exceptions⟩, st1)
  else
    let (message, filtered) := fallbackScan span.status.message [] attributes
    if message ≠ [] then
      let (hexID, st1) := freshId st
      some (filtered, some ⟨[⟨hexID, [], message, none, none⟩]⟩, st1)
    else some (filtered, none, st)

/-- `makeCause`: short-circuit on a non-error status; otherwise build the
cause and filtered attributes, then classify via the HTTP status code.
`none` models a Go runtime panic inside one of the stack-trace parsers. -/
def makeCause (span : Span) (attributes : AttrMap) (resource : Resource)
    (st : IdState) : Option (MakeCauseResult × IdState) :=
  if span.status.code = StatusCode.error then
    match causePart span attributes resource st with
    | none => none
    | some (filtered, cause, st1) =>
      let (isError, isFault, isThrottle) := httpFlags span
      some (⟨isError, isFault, isThrottle, filtered, cause⟩, st1)
  else some (⟨false, false, false, attributes, none⟩, st)

/-! ## Concrete inputs used by witnesses and counterexamples -/

/-- A concrete id stream for witnesses (the claims hold for every stream). -/
def genW : Nat → GoStr := fun n => '#' :: (Nat.toDigits 10 n)

/-- An error status with empty message. -/
def errStatus : SpanStatus := ⟨.error, []⟩

/-- The Convention A input of the spec's concrete parsing example. -/
def javaTraceC4 : GoStr :=
  "E\n\tat a.b.c(File.java:10)\nCaused by: X: y\n\tat a.b.c(File.java:20)\n".data

/-- A `Caused by:` line whose first colon is its final byte: the message
slice `causeType[colonIdx+2:]` then starts past the end of the text. -/
def javaTraceC1 : GoStr := "E\nCaused by: X:".data

/-- An error span carrying one exception event whose stack trace is
`javaTraceC1`. -/
def spanC1 : Span :=
  ⟨errStatus, [⟨exceptionEventName, [(keyExceptionStacktrace, .str javaTraceC1)]⟩], []⟩

/-- A resource declaring the java SDK language. -/
def resJava : Resource := ⟨[(keyTelemetrySDKLanguage, .str "java".data)]⟩

/-! ## Claims -/

/-- Claim C1: the spec asserts that for every error span, however malformed
the exception stack-trace text is, `makeCause` returns normally and yields a
best-effort cause — in particular that the parsers tolerate `Caused by:` type
lines whose message slice starts past the end of the text. The code does not:
on the trace `"E\nCaused by: X:"` the Java parser evaluates
`causeType[colonIdx+2:]` with `colonIdx+2 = len(causeType)+1` and panics with
a slice-bounds-out-of-range runtime error (modelled as `none`), reachable
from `makeCause` on an error span with a java-language resource. -/
theorem claim_c1_java_panic :
    fillJavaStacktrace javaTraceC1 [⟨genW 0, [], [], none, none⟩] ⟨genW, 1⟩ = none ∧
    makeCause spanC1 [] resJava ⟨genW, 0⟩ = none :=
  ⟨rfl, rfl⟩

/-- Claim C2: for every span whose status code is not the error status,
`makeCause` returns `(false, false, false, the input attribute map itself,
nil cause)`, and consumes no fresh ids (the id state comes back untouched —
no parsing work was observable). -/
theorem claim_c2_short_circuit (span : Span) (attributes : AttrMap)
    (resource : Resource) (st : IdState)
    (h : span.status.code ≠ StatusCode.error) :
    makeCause span attributes resource st =
      some (⟨false, false, false, attributes, none⟩, st) := by
  simp [makeCause, h]

/-- Witness for C2 at a concrete ok-status span. -/
theorem claim_c2_witness :
    (Span.mk ⟨.ok, []⟩ [] []).status.code ≠ StatusCode.error ∧
    makeCause ⟨⟨.ok, []⟩, [], []⟩ [(keyHTTPStatusCode, .int 404)] resJava ⟨genW, 0⟩ =
      some (⟨false, false, false, [(keyHTTPStatusCode, .int 404)], none⟩, ⟨genW, 0⟩) :=
  ⟨by decide, claim_c2_short_circuit _ _ _ _ (by decide)⟩

/-- Claim C4: for every id stream, cursor, and (type, message) pair, parsing
the spec's Convention A example through the java grammar yields exactly two
records: record 0 with one frame `(File.java, a.b.c, 10)` and its cause
reference equal to record 1's freshly drawn id, and record 1 with type `X`,
message `y`, and one frame `(File.java, a.b.c, 20)`. -/
theorem claim_c4_java_example (gen : Nat → GoStr) (n : Nat) (t m : GoStr) :
    parseException t m javaTraceC4 "java".data ⟨gen, n⟩ =
      some ([⟨gen n, t, m, some [⟨"File.java".data, "a.b.c".data, 10⟩],
               some (gen (n + 1))⟩,
             ⟨gen (n + 1), "X".data, "y".data,
               some [⟨"File.java".data, "a.b.c".data, 20⟩], none⟩],
            ⟨gen, n + 2⟩) := by
  rfl

/-- Claim C8: the chain builder dispatches the `php` language key to the very
same grammar as the `java` key: on every (type, message, stacktrace) triple
and id state the two calls are equal. -/
theorem claim_c8_php_is_java (t m s : GoStr) (st : IdState) :
    parseException t m s "php".data st = parseException t m s "java".data st := by
  by_cases hs : s = [] <;>
    simp [parseException, hs, show ¬("php".data = "java".data) from by decide,
      show ¬("php".data = "python".data) from by decide,
      show ¬("php".data = "javascript".data) from by decide,
      show ¬("php".data = "dotnet".data) from by decide]

/-! ## Flag lemmas (C3, C10) -/

/-- On an error span, whatever the cause computation produced, the returned
flags are exactly `httpFlags`. -/
lemma makeCause_flags_eq (span : Span) (attributes : AttrMap)
    (resource : Resource) (st : IdState) (r : MakeCauseResult) (st' : IdState)
    (herr : span.status.code = StatusCode.error)
    (hres : makeCause span attributes resource st = some (r, st')) :
    (r.isError, r.isFault, r.isThrottle) = httpFlags span := by
  rw [makeCause, if_pos herr] at hres
  rcases hcp : causePart span attributes resource st with _ | ⟨filt, cause, st1⟩
  · rw [hcp] at hres; exact absurd hres (by simp)
  · rw [hcp] at hres
    rcases hhf : httpFlags span with ⟨e, f, th⟩
    rw [hhf] at hres
    simp only [Option.some.injEq, Prod.mk.injEq] at hres
    obtain ⟨hr, -⟩ := hres
    subst hr
    rfl

lemma httpFlags_absent (span : Span)
    (h : attrGet span.attributes keyHTTPStatusCode = none) :
    httpFlags span = (false, true, false) := by
  simp [httpFlags, h]

lemma httpFlags_present (span : Span) (v : AttributeValue)
    (h : attrGet span.attributes keyHTTPStatusCode = some v) :
    httpFlags span =
      if 400 ≤ v.intVal ∧ v.intVal ≤ 499 then (true, false, decide (v.intVal = 429))
      else (false, true, false) := by
  simp [httpFlags, h]

/-- Claim C3: for an error span on which `makeCause` returns, the flags are
determined by the span's `http.status_code` attribute: absent gives
`(false, true, false)`; present with integer value in `[400,499]` gives
`is_error` with `is_throttle` exactly at 429; present with any other value
gives `(false, true, false)`. -/
theorem claim_c3_http_flags (span : Span) (attributes : AttrMap)
    (resource : Resource) (st : IdState) (r : MakeCauseResult) (st' : IdState)
    (herr : span.status.code = StatusCode.error)
    (hres : makeCause span attributes resource st = some (r, st')) :
    (attrGet span.attributes keyHTTPStatusCode = none →
      r.isError = false ∧ r.isFault = true ∧ r.isThrottle = false) ∧
    (∀ v, attrGet span.attributes keyHTTPStatusCode = some v →
      (400 ≤ v.intVal ∧ v.intVal ≤ 499 →
        r.isError = true ∧ r.isFault = false ∧ (r.isThrottle = true ↔ v.intVal = 429)) ∧
      (¬(400 ≤ v.intVal ∧ v.intVal ≤ 499) →
        r.isError = false ∧ r.isFault = true ∧ r.isThrottle = false)) := by
  have hfl := makeCause_flags_eq span attributes resource st r st' herr hres
  constructor
  · intro habs
    rw [httpFlags_absent span habs] at hfl
    simp only [Prod.mk.injEq] at hfl
    exact ⟨hfl.1, hfl.2.1, hfl.2.2⟩
  · intro v hv
    rw [httpFlags_present span v hv] at hfl
    constructor
    · intro hin
      rw [if_pos hin] at hfl
      simp only [Prod.mk.injEq] at hfl
      refine ⟨hfl.1, hfl.2.1, ?_⟩
      rw [hfl.2.2]
      simp
    · intro hout
      rw [if_neg hout] at hfl
      simp only [Prod.mk.injEq] at hfl
      exact ⟨hfl.1, hfl.2.1, hfl.2.2⟩

/-- An error span with a 404, used to witness C3. -/
def spanC3 : Span := ⟨⟨.error, "m".data⟩, [], [(keyHTTPStatusCode, .int 404)]⟩

/-- The result `makeCause` yields on `spanC3` (fallback path: one synthetic
exception from the status message). -/
def resultC3 : MakeCauseResult :=
  ⟨true, false, false, [], some ⟨[⟨genW 0, [], "m".data, none, none⟩]⟩⟩

/-- Witness for C3: on a concrete error span with `http.status_code = 404`
the hypotheses hold and the classification follows. -/
theorem claim_c3_witness :
    spanC3.status.code = StatusCode.error ∧
    makeCause spanC3 [] resJava ⟨genW, 0⟩ = some (resultC3, ⟨genW, 1⟩) ∧
    ((attrGet spanC3.attributes keyHTTPStatusCode = none →
      resultC3.isError = false ∧ resultC3.isFault = true ∧ resultC3.isThrottle = false) ∧
    (∀ v, attrGet spanC3.attributes keyHTTPStatusCode = some v →
      (400 ≤ v.intVal ∧ v.intVal ≤ 499 →
        resultC3.isError = true ∧ resultC3.isFault = false ∧
          (resultC3.isThrottle = true ↔ v.intVal = 429)) ∧
      (¬(400 ≤ v.intVal ∧ v.intVal ≤ 499) →
        resultC3.isError = false ∧ resultC3.isFault = true ∧ resultC3.isThrottle = false))) :=
  ⟨rfl, rfl, claim_c3_http_flags spanC3 [] resJava ⟨genW, 0⟩ resultC3 ⟨genW, 1⟩ rfl rfl⟩

/-- Claim C10: on every return of `makeCause`, `is_error` and `is_fault` are
never both set, `is_throttle` implies `is_error`, and for an error-status
span exactly one of `is_error`/`is_fault` is set. -/
theorem claim_c10_flag_invariant (span : Span) (attributes : AttrMap)
    (resource : Resource) (st : IdState) (r : MakeCauseResult) (st' : IdState)
    (hres : makeCause span attributes resource st = some (r, st')) :
    ¬(r.isError = true ∧ r.isFault = true) ∧
    (r.isThrottle = true → r.isError = true) ∧
    (span.status.code = StatusCode.error →
      (r.isError = true ∧ r.isFault = false) ∨ (r.isError = false ∧ r.isFault = true)) := by
  by_cases herr : span.status.code = StatusCode.error
  · have hfl := makeCause_flags_eq span attributes resource st r st' herr hres
    rcases hv : attrGet span.attributes keyHTTPStatusCode with _ | v
    · rw [httpFlags_absent span hv] at hfl
      simp only [Prod.mk.injEq] at hfl
      obtain ⟨h1, h2, h3⟩ := hfl
      refine ⟨by simp [h1], by simp [h3], fun _ => Or.inr ⟨h1, h2⟩⟩
    · rw [httpFlags_present span v hv] at hfl
      by_cases hin : 400 ≤ v.intVal ∧ v.intVal ≤ 499
      · rw [if_pos hin] at hfl
        simp only [Prod.mk.injEq] at hfl
        obtain ⟨h1, h2, h3⟩ := hfl
        exact ⟨by simp [h2], fun _ => h1, fun _ => Or.inl ⟨h1, h2⟩⟩
      · rw [if_neg hin] at hfl
        simp only [Prod.mk.injEq] at hfl
        obtain ⟨h1, h2, h3⟩ := hfl
        exact ⟨by simp [h1], by simp [h3], fun _ => Or.inr ⟨h1, h2⟩⟩
  · rw [makeCause, if_neg herr] at hres
    simp only [Option.some.injEq, Prod.mk.injEq] at hres
    obtain ⟨hr, -⟩ := hres
    subst hr
    exact ⟨by simp, by simp, fun h => absurd h herr⟩

/-- An error span with a 429, used to witness C10. -/
def spanC10 : Span := ⟨⟨.error, "m".data⟩, [], [(keyHTTPStatusCode, .int 429)]⟩

/-- The result `makeCause` yields on `spanC10`. -/
def resultC10 : MakeCauseResult :=
  ⟨true, false, true, [], some ⟨[⟨genW 0, [], "m".data, none, none⟩]⟩⟩

/-- Witness for C10 at a concrete throttled error span. -/
theorem claim_c10_witness :
    makeCause spanC10 [] resJava ⟨genW, 0⟩ = some (resultC10, ⟨genW, 1⟩) ∧
    (¬(resultC10.isError = true ∧ resultC10.isFault = true) ∧
     (resultC10.isThrottle = true → resultC10.isError = true) ∧
     (spanC10.status.code = StatusCode.error →
       (resultC10.isError = true ∧ resultC10.isFault = false) ∨
       (resultC10.isError = false ∧ resultC10.isFault = true))) :=
  ⟨rfl, claim_c10_flag_invariant spanC10 [] resJava ⟨genW, 0⟩ resultC10 ⟨genW, 1⟩ rfl⟩

/-! ## Fallback-path lemmas (C5, C6) -/

lemma attrGet_eq_none_of_not_mem (l : AttrMap) (key : GoStr)
    (h : key ∉ l.map Prod.fst) : attrGet l key = none := by
  induction l with
  | nil => rfl
  | cons kv rest ih =>
    simp only [List.map_cons, List.mem_cons, not_or] at h
    rw [attrGet, if_neg (fun hk => h.1 hk.symm)]
    exact ih h.2

/-- Under a duplicate-free key list, the message that the fallback scan
produces is the status message if nonempty, else the string value of the
`http.status_text` entry (empty if absent). -/
lemma fallbackScan_fst (attrs : AttrMap)
    (hnodup : (attrs.map Prod.fst).Nodup) (m acc1 : _) :
    (fallbackScan m acc1 attrs).1 =
      if m = [] then
        ((attrGet attrs keyHTTPStatusText).map AttributeValue.stringVal).getD []
      else m := by
  induction attrs generalizing m acc1 with
  | nil =>
    rw [fallbackScan, attrGet]
    split <;> simp_all
  | cons kv rest ih =>
    obtain ⟨k, v⟩ := kv
    simp only [List.map_cons, List.nodup_cons] at hnodup
    rw [fallbackScan, attrGet]
    by_cases hk : k = keyHTTPStatusText
    · rw [if_pos hk, if_pos hk, ih hnodup.2]
      by_cases hm : m = []
      · rw [if_pos hm]
        simp only [hm, if_pos rfl]
        by_cases hv : v.stringVal = []
        · rw [if_pos hv,
            attrGet_eq_none_of_not_mem rest keyHTTPStatusText (hk ▸ hnodup.1)]
          simp [hv]
        · rw [if_neg hv]
          simp
      · rw [if_neg hm, if_neg hm, if_neg hm]
    · rw [if_neg hk, if_neg hk, ih hnodup.2]

/-- The filtered map the fallback scan builds: everything except the
`http.status_text` entries, in order, appended to the accumulator. -/
lemma fallbackScan_snd (attrs : AttrMap) (m acc1 : _) :
    (fallbackScan m acc1 attrs).2 =
      acc1 ++ attrs.filter (fun kv => ¬(kv.1 = keyHTTPStatusText)) := by
  induction attrs generalizing m acc1 with
  | nil => simp [fallbackScan]
  | cons kv rest ih =>
    obtain ⟨k, v⟩ := kv
    rw [fallbackScan]
    by_cases hk : k = keyHTTPStatusText
    · rw [if_pos hk, ih]
      simp [List.filter, hk]
    · rw [if_neg hk, ih]
      simp [List.filter, hk]

/-- On an error span with no exception events, `causePart` takes the
fallback branch. -/
lemma causePart_fallback (span : Span) (attrs : AttrMap) (res : Resource)
    (st : IdState)
    (hnoexc : ∀ e ∈ span.events, e.name ≠ exceptionEventName) :
    causePart span attrs res st =
      (if (fallbackScan span.status.message [] attrs).1 ≠ [] then
        some ((fallbackScan span.status.message [] attrs).2,
          some ⟨[⟨st.gen st.next, [], (fallbackScan span.status.message [] attrs).1,
            none, none⟩]⟩, ⟨st.gen, st.next + 1⟩)
      else some ((fallbackScan span.status.message [] attrs).2, none, st)) := by
  have hany : (span.events.any fun e => e.name = exceptionEventName) = false := by
    rw [List.any_eq_false]
    intro e he
    simpa using hnoexc e he
  rw [causePart, hany]
  simp only [Bool.false_eq_true, if_false]
  rcases hsc : fallbackScan span.status.message [] attrs with ⟨msg, filt⟩
  simp [freshId]

/-- Claim C5: for an error span with no exception events and duplicate-free
attribute keys, if the fallback message (status message, else the
`http.status_text` value) is nonempty, the cause holds exactly one exception
with a freshly drawn id, empty type, that message, and no stack; if it is
empty, the cause is nil even though the span is an error. -/
theorem claim_c5_fallback_cause (span : Span) (attrs : AttrMap)
    (res : Resource) (st : IdState)
    (herr : span.status.code = StatusCode.error)
    (hnoexc : ∀ e ∈ span.events, e.name ≠ exceptionEventName)
    (hnodup : (attrs.map Prod.fst).Nodup) :
    (makeCause span attrs res st).map (fun p => p.1.cause) =
      some (let msg := if span.status.message = [] then
              ((attrGet attrs keyHTTPStatusText).map AttributeValue.stringVal).getD []
            else span.status.message
            if msg = [] then none
            else some ⟨[⟨st.gen st.next, [], msg, none, none⟩]⟩) := by
  rw [makeCause, if_pos herr, causePart_fallback span attrs res st hnoexc]
  rw [fallbackScan_fst attrs hnodup]
  set msg := if span.status.message = [] then
      ((attrGet attrs keyHTTPStatusText).map AttributeValue.stringVal).getD []
    else span.status.message with hmsg
  by_cases hm : msg = []
  · simp [hm]
  · rcases hhf : httpFlags span with ⟨e, f, t⟩
    simp [hm, hhf]

/-- An error span with status message `boom` and no events. -/
def spanC5 : Span := ⟨⟨.error, "boom".data⟩, [], []⟩

/-- Attributes with no `http.status_text` entry. -/
def attrsC5 : AttrMap := [("k".data, .int 1)]

/-- Witness for C5 at a concrete error span with status message `boom`. -/
theorem claim_c5_witness :
    (spanC5.status.code = StatusCode.error ∧
     (∀ e ∈ spanC5.events, e.name ≠ exceptionEventName) ∧
     (attrsC5.map Prod.fst).Nodup) ∧
    (makeCause spanC5 attrsC5 resJava ⟨genW, 0⟩).map (fun p => p.1.cause) =
      some (some ⟨[⟨genW 0, [], "boom".data, none, none⟩]⟩) :=
  ⟨⟨rfl, by decide, by decide⟩,
    (claim_c5_fallback_cause spanC5 attrsC5 resJava ⟨genW, 0⟩ rfl (by decide)
      (by decide)).trans rfl⟩

/-- The error span of the C6 counterexample: nonempty status message, no
events. -/
def spanC6 : Span := ⟨⟨.error, "boom".data⟩, [], []⟩

/-- Attributes of the C6 counterexample: an `http.status_text` entry whose
value differs from the status message, plus one unrelated entry. -/
def attrsC6 : AttrMap := [(keyHTTPStatusText, .str "x".data), ("k".data, .int 1)]

/-- Counterexample for C6: the claim states the legacy `http.status_text`
entry is removed exactly when its value has been folded into the fallback
message. On this input the status message `boom` is nonempty, so the
`http.status_text` value `x` is not folded (the synthesized exception's
message is `boom`, not `x`) — yet the returned map no longer contains
`http.status_text`. -/
theorem claim_c6_counterexample :
    ∃ r st', makeCause spanC6 attrsC6 resJava ⟨genW, 0⟩ = some (r, st') ∧
      r.cause = some ⟨[⟨genW 0, [], spanC6.status.message, none, none⟩]⟩ ∧
      spanC6.status.message ≠ AttributeValue.stringVal (.str "x".data) ∧
      attrGet attrsC6 keyHTTPStatusText = some (.str "x".data) ∧
      attrGet r.filtered keyHTTPStatusText = none :=
  ⟨_, _, rfl, rfl, by decide, rfl, rfl⟩

/-- Claim C6 (amended): in the fallback path (error span, no exception
events) the returned attribute map is a newly built one from which every
`http.status_text` entry has been removed unconditionally — whether or not
its value was folded into the message; when exception events exist, the
returned map equals the input map (in the source it is the identical object,
which a value-level embedding renders as equality). -/
theorem claim_c6_filtered (span : Span) (attrs : AttrMap) (res : Resource)
    (st : IdState) :
    (span.status.code = StatusCode.error →
      (∀ e ∈ span.events, e.name ≠ exceptionEventName) →
      (makeCause span attrs res st).map (fun p => p.1.filtered) =
        some (attrs.filter fun kv => ¬(kv.1 = keyHTTPStatusText))) ∧
    (∀ r st', makeCause span attrs res st = some (r, st') →
      (∃ e ∈ span.events, e.name = exceptionEventName) →
      r.filtered = attrs) := by
  constructor
  · intro herr hnoexc
    rw [makeCause, if_pos herr, causePart_fallback span attrs res st hnoexc]
    rw [fallbackScan_snd, List.nil_append]
    rcases hhf : httpFlags span with ⟨e, f, t⟩
    by_cases hm : (fallbackScan span.status.message [] attrs).1 ≠ []
    · rw [if_pos hm]; simp [hhf]
    · rw [if_neg hm]; simp [hhf]
  · intro r st' hres hexc
    have hany : (span.events.any fun e => e.name = exceptionEventName) = true := by
      rw [List.any_eq_true]
      obtain ⟨e, he, hn⟩ := hexc
      exact ⟨e, he, by simpa using hn⟩
    by_cases herr : span.status.code = StatusCode.error
    · rw [makeCause, if_pos herr, causePart, hany] at hres
      simp only [if_true] at hres
      rcases hev : eventsLoop
          (((attrGet res.attributes keyTelemetrySDKLanguage).map
            AttributeValue.stringVal).getD []) st span.events [] with _ | ⟨exc, st1⟩
      · rw [hev] at hres; exact absurd hres (by simp)
      · rw [hev] at hres
        rcases hhf : httpFlags span with ⟨e, f, t⟩
        rw [hhf] at hres
        simp only [Option.some.injEq, Prod.mk.injEq] at hres
        obtain ⟨hr, -⟩ := hres
        subst hr
        rfl
    · rw [makeCause, if_neg herr] at hres
      simp only [Option.some.injEq, Prod.mk.injEq] at hres
      obtain ⟨hr, -⟩ := hres
      subst hr
      rfl

/-- An error span with one (attribute-less) exception event, used to witness
the pass-through half of C6. -/
def spanC6b : Span := ⟨⟨.error, "boom".data⟩, [⟨exceptionEventName, []⟩], []⟩

/-- Attributes containing `http.status_text`, which the exception-events path
must pass through untouched. -/
def attrsC6b : AttrMap := [(keyHTTPStatusText, .str "x".data)]

/-- The result `makeCause` yields on `spanC6b`/`attrsC6b`. -/
def resultC6b : MakeCauseResult :=
  ⟨false, true, false, attrsC6b, some ⟨[⟨genW 0, [], [], none, none⟩]⟩⟩

/-- Witness for C6 (amended), both halves at concrete inputs. -/
theorem claim_c6_witness :
    ((makeCause spanC6 attrsC6 resJava ⟨genW, 0⟩).map (fun p => p.1.filtered) =
      some (attrsC6.filter fun kv => ¬(kv.1 = keyHTTPStatusText))) ∧
    resultC6b.filtered = attrsC6b :=
  ⟨(claim_c6_filtered spanC6 attrsC6 resJava ⟨genW, 0⟩).1 rfl (by decide),
   (claim_c6_filtered spanC6b attrsC6b resJava ⟨genW, 0⟩).2 resultC6b ⟨genW, 1⟩ rfl
     ⟨⟨exceptionEventName, []⟩, by simp [spanC6b], rfl⟩⟩

/-! ## Convention E pair structure (C7) -/

/-- Append a whole frame list to the active record's stack. -/
def mapLastStack (exs : List Exception) (fs : List StackFrame) : List Exception :=
  modifyLast (fun e => { e with stack := some (e.stack.getD [] ++ fs) }) exs

lemma modifyLast_cons (f : Exception → Exception) (x : Exception)
    (xs : List Exception) (h : xs ≠ []) :
    modifyLast f (x :: xs) = x :: modifyLast f xs := by
  cases xs with
  | nil => exact absurd rfl h
  | cons y ys => rfl

lemma modifyLast_ne_nil (f : Exception → Exception) (xs : List Exception)
    (h : xs ≠ []) : modifyLast f xs ≠ [] := by
  cases xs with
  | nil => exact absurd rfl h
  | cons y ys => cases ys <;> simp [modifyLast]

lemma modifyLast_modifyLast (f g : Exception → Exception) (xs : List Exception) :
    modifyLast g (modifyLast f xs) = modifyLast (fun e => g (f e)) xs := by
  induction xs with
  | nil => rfl
  | cons x rest ih =>
    cases rest with
    | nil => rfl
    | cons y ys =>
      rw [modifyLast_cons f x (y :: ys) (by simp),
        modifyLast_cons g x _ (modifyLast_ne_nil f _ (by simp)),
        modifyLast_cons _ x (y :: ys) (by simp), ih]

lemma mapLastStack_cons (exs : List Exception) (f : StackFrame)
    (fs : List StackFrame) :
    mapLastStack (appendFrameLast exs f) fs = mapLastStack exs (f :: fs) := by
  rw [appendFrameLast, mapLastStack, mapLastStack, modifyLast_modifyLast]
  congr 1
  funext e
  simp

/-- A line sequence made of (label-line, next-line) pairs. -/
def flattenPairs : List (GoStr × GoStr) → List GoStr
  | [] => []
  | (a, b) :: rest => a :: b :: flattenPairs rest

lemma flattenPairs_length (ps : List (GoStr × GoStr)) :
    (flattenPairs ps).length = 2 * ps.length := by
  induction ps with
  | nil => rfl
  | cons p rest ih =>
    obtain ⟨a, b⟩ := p
    simp [flattenPairs, ih]
    omega

/-- The frames the Convention E loop emits for a pair list, starting from
carried-over `path`/`line` values: one frame per pair, with the previous
values silently reused whenever the path:line pattern fails on the pair's
second line. -/
def goExpected : GoStr → Int → List (GoStr × GoStr) → List StackFrame
  | _, _, [] => []
  | path, ln, (lab, nxt) :: rest =>
    match plnreMatch nxt with
    | some (p, d) => ⟨p, lab, goAtoi d⟩ :: goExpected p (goAtoi d) rest
    | none => ⟨path, lab, ln⟩ :: goExpected path ln rest

/-- The Convention E loop on a pure pair sequence (no goroutine-header lines
in label position) emits exactly `goExpected`. -/
lemma goLoop_pairs (ps : List (GoStr × GoStr)) :
    ∀ (lab nxt : GoStr) (fuel : Nat) (exs : List Exception) (path : GoStr)
      (ln : Int), goroutineRe lab = false →
      (∀ p ∈ ps, goroutineRe p.1 = false) → ps.length + 1 ≤ fuel →
      goLoop fuel exs lab (nxt :: flattenPairs ps) path ln =
        mapLastStack exs (goExpected path ln ((lab, nxt) :: ps)) := by
  induction ps with
  | nil =>
    intro lab nxt fuel exs path ln hlab _ hfuel
    cases fuel with
    | zero => omega
    | succ f =>
      rw [goLoop]
      simp only [hlab, Bool.false_eq_true, if_false, flattenPairs, readl]
      rcases hm : plnreMatch nxt with _ | ⟨p, d⟩ <;>
        simp [hm, goExpected, mapLastStack, appendFrameLast]
  | cons q ps2 ih =>
    obtain ⟨lab2, nxt2⟩ := q
    intro lab nxt fuel exs path ln hlab hps hfuel
    cases fuel with
    | zero => simp at hfuel
    | succ f =>
      rw [goLoop]
      simp only [hlab, Bool.false_eq_true, if_false, flattenPairs, readl]
      have hlab2 : goroutineRe lab2 = false := hps ⟨lab2, nxt2⟩ (by simp)
      have hps2 : ∀ p ∈ ps2, goroutineRe p.1 = false :=
        fun p hp => hps p (List.mem_cons_of_mem _ hp)
      have hf2 : ps2.length + 1 ≤ f := by
        simp only [List.length_cons] at hfuel
        omega
      rcases hm : plnreMatch nxt with _ | ⟨p, d⟩ <;>
        simp only [hm, ih lab2 nxt2 f _ _ _ hlab2 hps2 hf2, mapLastStack_cons,
          goExpected]

/-- Claim C7: in the Convention E grammar, after the skipped header line,
every consecutive (label-line, next-line) pair produces exactly one stack
frame, whether or not the path:line pattern matches the second line; on a
failed match the frame silently reuses the path/line values of the last
successful match (empty/zero if none yet). -/
theorem claim_c7_go_pair_quirk (s hdr : GoStr) (ps : List (GoStr × GoStr))
    (e : Exception)
    (hlines : readLines s = hdr :: flattenPairs ps)
    (hne : ps ≠ [])
    (hlab : ∀ p ∈ ps, goroutineRe p.1 = false) :
    fillGoStacktrace s [e] = [{ e with stack := some (goExpected [] 0 ps) }] := by
  obtain ⟨⟨lab, nxt⟩, ps2, rfl⟩ : ∃ q qs, ps = q :: qs := by
    cases ps with
    | nil => exact absurd rfl hne
    | cons q qs => exact ⟨q, qs, rfl⟩
  rw [fillGoStacktrace, hlines]
  simp only [flattenPairs]
  rw [goLoop_pairs ps2 lab nxt _ _ _ _
    (hlab ⟨lab, nxt⟩ (by simp))
    (fun p hp => hlab p (List.mem_cons_of_mem _ hp))
    (by simp [flattenPairs_length]; omega)]
  simp [mapLastStack, initStackLast, modifyLast]

/-- The witness input for C7: a goroutine header followed by two pairs, the
second of which has no path:line pattern on its second line. -/
def sC7 : GoStr :=
  "goroutine 1 [running]:\nmain.main()\n\t/app/main.go:10 +0x1\nfoo.bar()\nno-location\n".data

def hdrC7 : GoStr := "goroutine 1 [running]:".data

def psC7 : List (GoStr × GoStr) :=
  [("main.main()".data, "\t/app/main.go:10 +0x1".data),
   ("foo.bar()".data, "no-location".data)]

/-- The exception record the C7 witness starts from. -/
def eW : Exception := ⟨genW 0, "t".data, "m".data, none, none⟩

/-- Witness for C7: the second pair's frame reuses the first pair's
path and line number. -/
theorem claim_c7_witness :
    (readLines sC7 = hdrC7 :: flattenPairs psC7 ∧ psC7 ≠ [] ∧
      (∀ p ∈ psC7, goroutineRe p.1 = false)) ∧
    fillGoStacktrace sC7 [eW] =
      [{ eW with stack := some [⟨"/app/main.go".data, "main.main()".data, 10⟩,
                                ⟨"/app/main.go".data, "foo.bar()".data, 10⟩] }] :=
  ⟨⟨rfl, by decide, by decide⟩,
   (claim_c7_go_pair_quirk sC7 hdrC7 psC7 eW rfl (by decide) (by decide)).trans rfl⟩

/-! ## Identifier erasure (C9)

Two runs of the translation differ only in the freshly generated identifier
values. `eraseExc` forgets the id and the cause-link payload (which is
itself an id) while keeping the link's presence, so "structurally identical
except for the generated identifiers" becomes equality after erasure. -/

/-- Forget a record's own id and the payload of its cause link. -/
def eraseExc (e : Exception) : Exception :=
  ⟨[], e.typ, e.message, e.stack, e.cause.map fun _ => []⟩

/-- Erase ids across a record list. -/
def eraseList (l : List Exception) : List Exception := l.map eraseExc

lemma eraseList_nil : eraseList [] = [] := rfl

lemma eraseList_cons (x : Exception) (xs : List Exception) :
    eraseList (x :: xs) = eraseExc x :: eraseList xs := rfl

lemma eraseList_append (a b : List Exception) :
    eraseList (a ++ b) = eraseList a ++ eraseList b := List.map_append _ a b

lemma eraseExc_fields (a b : Exception) (h : eraseExc a = eraseExc b) :
    a.typ = b.typ ∧ a.message = b.message ∧ a.stack = b.stack ∧
    a.cause.map (fun _ => ([] : GoStr)) = b.cause.map (fun _ => []) := by
  simpa [eraseExc, Exception.mk.injEq] using h

/-- Congruence of `modifyLast` under erasure: when the two modification
functions agree after erasure on erasure-equal inputs, erasure-equal lists
stay erasure-equal. -/
lemma modifyLast_erase {f g : Exception → Exception}
    (hfg : ∀ a b, eraseExc a = eraseExc b → eraseExc (f a) = eraseExc (g b)) :
    ∀ xs ys : List Exception, eraseList xs = eraseList ys →
      eraseList (modifyLast f xs) = eraseList (modifyLast g ys) := by
  intro xs
  induction xs with
  | nil =>
    intro ys hy
    cases ys with
    | nil => rfl
    | cons y ys2 => simp [eraseList] at hy
  | cons x xs ih =>
    intro ys hy
    cases ys with
    | nil => simp [eraseList] at hy
    | cons y ys2 =>
      rw [eraseList_cons, eraseList_cons] at hy
      injection hy with hxy htail
      cases xs with
      | nil =>
        cases ys2 with
        | nil => simp [modifyLast, eraseList_cons, hfg x y hxy]
        | cons z zs => simp [eraseList] at htail
      | cons x2 xs2 =>
        cases ys2 with
        | nil => simp [eraseList] at htail
        | cons y2 ys3 =>
          rw [modifyLast_cons f x (x2 :: xs2) (by simp),
            modifyLast_cons g y (y2 :: ys3) (by simp),
            eraseList_cons, eraseList_cons, hxy, ih (y2 :: ys3) htail]

/-- Erasure congruence for appending one frame to the active record. -/
lemma appendFrameLast_erase (f : StackFrame) (xs ys : List Exception)
    (h : eraseList xs = eraseList ys) :
    eraseList (appendFrameLast xs f) = eraseList (appendFrameLast ys f) := by
  refine modifyLast_erase ?_ xs ys h
  intro a b hab
  obtain ⟨h1, h2, h3, h4⟩ := eraseExc_fields a b hab
  simp [eraseExc, h1, h2, h3, h4]

/-- Erasure congruence for `applyFrame`. -/
lemma applyFrame_erase (fr : Option StackFrame) (xs ys : List Exception)
    (h : eraseList xs = eraseList ys) :
    eraseList (applyFrame xs fr) = eraseList (applyFrame ys fr) := by
  cases fr with
  | none => exact h
  | some f => exact appendFrameLast_erase f xs ys h

/-- Erasure congruence for allocating the active record's stack. -/
lemma initStackLast_erase (xs ys : List Exception)
    (h : eraseList xs = eraseList ys) :
    eraseList (initStackLast xs) = eraseList (initStackLast ys) := by
  refine modifyLast_erase ?_ xs ys h
  intro a b hab
  obtain ⟨h1, h2, h3, h4⟩ := eraseExc_fields a b hab
  simp [eraseExc, h1, h2, h4]

/-- Erasure congruence for linking the active record to a fresh id and
appending the corresponding new record. -/
lemma setCauseAppend_erase (id1 id2 t m : GoStr) (xs ys : List Exception)
    (h : eraseList xs = eraseList ys) :
    eraseList (setCauseLast xs id1 ++ [⟨id1, t, m, some [], none⟩]) =
    eraseList (setCauseLast ys id2 ++ [⟨id2, t, m, some [], none⟩]) := by
  rw [eraseList_append, eraseList_append]
  have hc : eraseList (setCauseLast xs id1) = eraseList (setCauseLast ys id2) := by
    refine modifyLast_erase ?_ xs ys h
    intro a b hab
    obtain ⟨h1, h2, h3, h4⟩ := eraseExc_fields a b hab
    simp [eraseExc, h1, h2, h3]
  rw [hc]
  simp [eraseList, eraseExc]

lemma jsStep_erase (line : GoStr) (xs ys : List Exception)
    (h : eraseList xs = eraseList ys) :
    (jsStep xs line).map eraseList = (jsStep ys line).map eraseList := by
  rw [jsStep, jsStep]
  by_cases hp : startsWith line "    at ".data
  · rw [if_pos hp, if_pos hp]
    cases jsFrameOf line with
    | none => rfl
    | some fr => simp [applyFrame_erase fr xs ys h]
  · rw [if_neg hp, if_neg hp]
    simp [h]

lemma jsLoop_erase : ∀ (rest : List GoStr) (line : GoStr) (xs ys : List Exception),
    eraseList xs = eraseList ys →
    (jsLoop xs line rest).map eraseList = (jsLoop ys line rest).map eraseList := by
  intro rest
  induction rest with
  | nil => exact fun line xs ys h => jsStep_erase line xs ys h
  | cons l r ih =>
    intro line xs ys h
    rw [jsLoop, jsLoop]
    have hs := jsStep_erase line xs ys h
    rcases h1 : jsStep xs line with _ | exs1 <;>
      rcases h2 : jsStep ys line with _ | exs2 <;>
      rw [h1, h2] at hs <;> simp at hs <;> simp
    exact ih l exs1 exs2 hs

lemma fillJavaScriptStacktrace_erase (s : GoStr) (xs ys : List Exception)
    (h : eraseList xs = eraseList ys) :
    (fillJavaScriptStacktrace s xs).map eraseList =
    (fillJavaScriptStacktrace s ys).map eraseList := by
  rw [fillJavaScriptStacktrace, fillJavaScriptStacktrace]
  rcases readLines s with _ | ⟨l0, _ | ⟨l1, rest⟩⟩
  · simp [h]
  · simp [h]
  · exact jsLoop_erase rest l1 (initStackLast xs) (initStackLast ys)
      (initStackLast_erase xs ys h)

lemma dotnetStep_erase (line : GoStr) (xs ys : List Exception)
    (h : eraseList xs = eraseList ys) :
    (dotnetStep xs line).map eraseList = (dotnetStep ys line).map eraseList := by
  rw [dotnetStep, dotnetStep]
  by_cases hp : startsWith line "\tat ".data
  · rw [if_pos hp, if_pos hp]
    cases dotnetFrameOf line with
    | none => rfl
    | some fr => simp [applyFrame_erase fr xs ys h]
  · rw [if_neg hp, if_neg hp]
    simp [h]

lemma dotnetLoop_erase : ∀ (rest : List GoStr) (line : GoStr)
    (xs ys : List Exception), eraseList xs = eraseList ys →
    (dotnetLoop xs line rest).map eraseList =
    (dotnetLoop ys line rest).map eraseList := by
  intro rest
  induction rest with
  | nil => exact fun line xs ys h => dotnetStep_erase line xs ys h
  | cons l r ih =>
    intro line xs ys h
    rw [dotnetLoop, dotnetLoop]
    have hs := dotnetStep_erase line xs ys h
    rcases h1 : dotnetStep xs line with _ | exs1 <;>
      rcases h2 : dotnetStep ys line with _ | exs2 <;>
      rw [h1, h2] at hs <;> simp at hs <;> simp
    exact ih l exs1 exs2 hs

lemma fillDotnetStacktrace_erase (s : GoStr) (xs ys : List Exception)
    (h : eraseList xs = eraseList ys) :
    (fillDotnetStacktrace s xs).map eraseList =
    (fillDotnetStacktrace s ys).map eraseList := by
  rw [fillDotnetStacktrace, fillDotnetStacktrace]
  rcases readLines s with _ | ⟨l0, _ | ⟨l1, rest⟩⟩
  · simp [h]
  · simp [h]
  · exact dotnetLoop_erase rest l1 (initStackLast xs) (initStackLast ys)
      (initStackLast_erase xs ys h)

lemma goLoop_erase : ∀ (fuel : Nat) (line : GoStr) (rest : List GoStr)
    (path : GoStr) (ln : Int) (xs ys : List Exception),
    eraseList xs = eraseList ys →
    eraseList (goLoop fuel xs line rest path ln) =
    eraseList (goLoop fuel ys line rest path ln) := by
  intro fuel
  induction fuel with
  | zero => intro line rest path ln xs ys h; simpa [goLoop] using h
  | succ f ih =>
    intro line rest path ln xs ys h
    rw [goLoop, goLoop]
    rcases hA : (if goroutineRe line = true then readl rest else (line, rest))
      with ⟨lineA, restA⟩
    simp only [hA]
    rcases hB : readl restA with ⟨lineB, restB⟩
    simp only [hB]
    rcases hm : plnreMatch lineB with _ | ⟨p, d⟩ <;> simp only [hm] <;>
      cases restB with
      | nil => exact appendFrameLast_erase _ xs ys h
      | cons l r => exact ih l r _ _ _ _ (appendFrameLast_erase _ xs ys h)

lemma fillGoStacktrace_erase (s : GoStr) (xs ys : List Exception)
    (h : eraseList xs = eraseList ys) :
    eraseList (fillGoStacktrace s xs) = eraseList (fillGoStacktrace s ys) := by
  rw [fillGoStacktrace, fillGoStacktrace]
  rcases readLines s with _ | ⟨l0, _ | ⟨l1, rest⟩⟩
  · exact h
  · exact h
  · exact goLoop_erase (rest.length + 1) l1 rest [] 0 _ _
      (initStackLast_erase xs ys h)

/-- Unfolding equation of `javaLoop` at positive fuel. -/
lemma javaLoop_succ (f : Nat) (st : IdState) (exs : List Exception)
    (line : GoStr) (rest : List GoStr) :
    javaLoop (f + 1) st exs line rest =
      (if startsWith line "\tat ".data then
        match javaFrameOf line with
        | none => none
        | some frame =>
          let exs1 := applyFrame exs frame
          match rest with
          | [] => some (exs1, st)
          | l :: r => javaLoop f st exs1 l r
      else if startsWith line "Caused by: ".data then
        match goSliceFrom line 11 with
        | none => none
        | some causeType0 =>
          match causedBySplit causeType0 with
          | none => none
          | some (causeType, causeMessage0) =>
            let (causeMessage, line1, rest1) := javaInner causeMessage0 rest
            let (newId, st1) := freshId st
            let exs1 := setCauseLast exs newId ++
              [⟨newId, causeType, causeMessage, some [], none⟩]
            javaLoop f st1 exs1 line1 rest1
      else
        match rest with
        | [] => some (exs, st)
        | l :: r => javaLoop f st exs l r) := rfl

lemma javaLoop_erase : ∀ (fuel : Nat) (line : GoStr) (rest : List GoStr)
    (xs ys : List Exception) (st1 st2 : IdState),
    eraseList xs = eraseList ys →
    (javaLoop fuel st1 xs line rest).map (fun p => eraseList p.1) =
    (javaLoop fuel st2 ys line rest).map (fun p => eraseList p.1) := by
  intro fuel
  induction fuel with
  | zero => intro line rest xs ys st1 st2 h; simpa [goLoop, javaLoop] using h
  | succ f ih =>
    intro line rest xs ys st1 st2 h
    rw [javaLoop_succ, javaLoop_succ]
    by_cases hp1 : startsWith line "\tat ".data
    · rw [if_pos hp1, if_pos hp1]
      cases javaFrameOf line with
      | none => rfl
      | some fr =>
        cases rest with
        | nil => simp [applyFrame_erase fr xs ys h]
        | cons l r =>
          simp only
          exact ih l r _ _ st1 st2 (applyFrame_erase fr xs ys h)
    · rw [if_neg hp1, if_neg hp1]
      by_cases hp2 : startsWith line "Caused by: ".data
      · rw [if_pos hp2, if_pos hp2]
        rcases h1 : goSliceFrom line 11 with _ | causeType0
        · simp only [h1, Option.map_none]
        · simp only [h1]
          rcases h2 : causedBySplit causeType0 with _ | ⟨causeType, causeMessage0⟩
          · simp only [h2, Option.map_none]
          · simp only [h2]
            rcases hin : javaInner causeMessage0 rest with ⟨cm, line1, rest1⟩
            simp only [hin, freshId]
            exact ih line1 rest1 _ _ _ _
              (setCauseAppend_erase _ _ causeType cm xs ys h)
      · rw [if_neg hp2, if_neg hp2]
        cases rest with
        | nil => simp [h]
        | cons l r => exact ih l r xs ys st1 st2 h

lemma fillJavaStacktrace_erase (s : GoStr) (xs ys : List Exception)
    (st1 st2 : IdState) (h : eraseList xs = eraseList ys) :
    (fillJavaStacktrace s xs st1).map (fun p => eraseList p.1) =
    (fillJavaStacktrace s ys st2).map (fun p => eraseList p.1) := by
  rw [fillJavaStacktrace, fillJavaStacktrace]
  rcases readLines s with _ | ⟨l0, _ | ⟨l1, rest⟩⟩
  · simpa using h
  · simpa using h
  · exact javaLoop_erase (rest.length + 1) l1 rest _ _ st1 st2
      (initStackLast_erase xs ys h)

/-- Unfolding equation of `pyLoop` at positive fuel. -/
lemma pyLoop_succ (f : Nat) (st : IdState) (lines : List GoStr)
    (exs : List Exception) (lineIdx : Nat) (line : GoStr) :
    pyLoop (f + 1) st lines exs lineIdx line =
      (if startsWith line pyFileMarker then
        match pyFrameOf line with
        | none => none
        | some frame =>
          let exs1 := applyFrame exs frame
          if lineIdx = 0 then some (exs1, st)
          else pyLoop f st lines exs1 (lineIdx - 1) (lines.getD (lineIdx - 1) [])
      else if startsWith line pyDuringMarker then
        if lineIdx = 0 then some (exs, st)
        else
          match pyFindFile lines (lineIdx - 1) with
          | none => some (exs, st)
          | some nextFileLineIdx =>
            match goSlice lines (nextFileLineIdx + 2) (lineIdx - 1) with
            | none => none
            | some msgLines =>
              let message := joinNL msgLines
              match indexByte message ':' with
              | none => some (exs, st)
              | some colonIdx =>
                match goSliceTo message colonIdx with
                | none => none
                | some causeType =>
                  match goSliceFrom message (colonIdx + 2) with
                  | none => none
                  | some causeMessage =>
                    let (newId, st1) := freshId st
                    let exs1 := setCauseLast exs newId ++
                      [⟨newId, causeType, causeMessage, some [], none⟩]
                    pyLoop f st1 lines exs1 nextFileLineIdx
                      (lines.getD nextFileLineIdx [])
      else
        if lineIdx = 0 then some (exs, st)
        else pyLoop f st lines exs (lineIdx - 1) (lines.getD (lineIdx - 1) [])) := rfl

lemma pyLoop_erase : ∀ (fuel : Nat) (lines : List GoStr) (lineIdx : Nat)
    (line : GoStr) (xs ys : List Exception) (st1 st2 : IdState),
    eraseList xs = eraseList ys →
    (pyLoop fuel st1 lines xs lineIdx line).map (fun p => eraseList p.1) =
    (pyLoop fuel st2 lines ys lineIdx line).map (fun p => eraseList p.1) := by
  intro fuel
  induction fuel with
  | zero => intro lines lineIdx line xs ys st1 st2 h; simpa [pyLoop] using h
  | succ f ih =>
    intro lines lineIdx line xs ys st1 st2 h
    rw [pyLoop_succ, pyLoop_succ]
    by_cases hp1 : startsWith line pyFileMarker
    · rw [if_pos hp1, if_pos hp1]
      cases pyFrameOf line with
      | none => rfl
      | some fr =>
        by_cases h0 : lineIdx = 0
        · simp [h0, applyFrame_erase fr xs ys h]
        · simp only [h0, if_false, if_neg h0]
          exact ih lines (lineIdx - 1) _ _ _ st1 st2 (applyFrame_erase fr xs ys h)
    · rw [if_neg hp1, if_neg hp1]
      by_cases hp2 : startsWith line pyDuringMarker
      · rw [if_pos hp2, if_pos hp2]
        by_cases h0 : lineIdx = 0
        · simp [h0, h]
        · rw [if_neg h0, if_neg h0]
          rcases hff : pyFindFile lines (lineIdx - 1) with _ | nextFileLineIdx
          · simp only [hff, Option.map_some]
            simp [h]
          · simp only [hff]
            rcases hsl : goSlice lines (nextFileLineIdx + 2) (lineIdx - 1)
              with _ | msgLines
            · simp only [hsl, Option.map_none]
            · simp only [hsl]
              rcases hix : indexByte (joinNL msgLines) ':' with _ | colonIdx
              · simp only [hix, Option.map_some]
                simp [h]
              · simp only [hix]
                rcases hct : goSliceTo (joinNL msgLines) colonIdx with _ | causeType
                · simp only [hct, Option.map_none]
                · simp only [hct]
                  rcases hcm : goSliceFrom (joinNL msgLines) (colonIdx + 2)
                    with _ | causeMessage
                  · simp only [hcm, Option.map_none]
                  · simp only [hcm, freshId]
                    exact ih lines nextFileLineIdx _ _ _ _ _
                      (setCauseAppend_erase _ _ causeType causeMessage xs ys h)
      · rw [if_neg hp2, if_neg hp2]
        by_cases h0 : lineIdx = 0
        · simp [h0, h]
        · rw [if_neg h0, if_neg h0]
          exact ih lines (lineIdx - 1) _ xs ys st1 st2 h

lemma fillPythonStacktrace_erase (s : GoStr) (xs ys : List Exception)
    (st1 st2 : IdState) (h : eraseList xs = eraseList ys) :
    (fillPythonStacktrace s xs st1).map (fun p => eraseList p.1) =
    (fillPythonStacktrace s ys st2).map (fun p => eraseList p.1) := by
  rw [fillPythonStacktrace, fillPythonStacktrace]
  by_cases hlen : (splitOnChar '\n' s).length < 2
  · simp [hlen, h]
  · simp only [hlen, if_false, if_neg hlen]
    exact pyLoop_erase _ _ _ _ _ _ st1 st2 (initStackLast_erase xs ys h)

/-- The erased outcome of `parseException` does not depend on the id
state. -/
lemma parseException_erase (t m s lang : GoStr) (st1 st2 : IdState) :
    (parseException t m s lang st1).map (fun p => eraseList p.1) =
    (parseException t m s lang st2).map (fun p => eraseList p.1) := by
  rw [parseException, parseException]
  simp only [freshId]
  have hbase : eraseList [⟨st1.gen st1.next, t, m, none, none⟩] =
      eraseList [⟨st2.gen st2.next, t, m, none, none⟩] := by
    simp [eraseList, eraseExc]
  by_cases hs : s = []
  · simp only [if_pos hs, Option.map_some]
    simp [eraseList, eraseExc]
  · rw [if_neg hs, if_neg hs]
    by_cases h1 : lang = "java".data
    · rw [if_pos h1, if_pos h1]
      exact fillJavaStacktrace_erase s _ _ _ _ hbase
    · rw [if_neg h1, if_neg h1]
      by_cases h2 : lang = "python".data
      · rw [if_pos h2, if_pos h2]
        exact fillPythonStacktrace_erase s _ _ _ _ hbase
      · rw [if_neg h2, if_neg h2]
        by_cases h3 : lang = "javascript".data
        · rw [if_pos h3, if_pos h3]
          have := fillJavaScriptStacktrace_erase s _ _ hbase
          rcases ha : fillJavaScriptStacktrace s
              [⟨st1.gen st1.next, t, m, none, none⟩] with _ | la <;>
            rcases hb : fillJavaScriptStacktrace s
              [⟨st2.gen st2.next, t, m, none, none⟩] with _ | lb <;>
            rw [ha, hb] at this <;> simp at this <;> simp
          exact this
        · rw [if_neg h3, if_neg h3]
          by_cases h4 : lang = "dotnet".data
          · rw [if_pos h4, if_pos h4]
            have := fillDotnetStacktrace_erase s _ _ hbase
            rcases ha : fillDotnetStacktrace s
                [⟨st1.gen st1.next, t, m, none, none⟩] with _ | la <;>
              rcases hb : fillDotnetStacktrace s
                [⟨st2.gen st2.next, t, m, none, none⟩] with _ | lb <;>
              rw [ha, hb] at this <;> simp at this <;> simp
            exact this
          · rw [if_neg h4, if_neg h4]
            by_cases h5 : lang = "php".data
            · rw [if_pos h5, if_pos h5]
              exact fillJavaStacktrace_erase s _ _ _ _ hbase
            · rw [if_neg h5, if_neg h5]
              by_cases h6 : lang = "go".data
              · rw [if_pos h6, if_pos h6]
                simpa using fillGoStacktrace_erase s _ _ hbase
              · rw [if_neg h6, if_neg h6]
                simpa using hbase

/-- The erased outcome of the event loop does not depend on the id state,
given erasure-equal accumulators. -/
lemma eventsLoop_erase (lang : GoStr) : ∀ (events : List SpanEvent)
    (acc1 acc2 : List Exception) (st1 st2 : IdState),
    eraseList acc1 = eraseList acc2 →
    (eventsLoop lang st1 events acc1).map (fun p => eraseList p.1) =
    (eventsLoop lang st2 events acc2).map (fun p => eraseList p.1) := by
  intro events
  induction events with
  | nil => intro acc1 acc2 st1 st2 h; simpa [eventsLoop] using h
  | cons e rest ih =>
    intro acc1 acc2 st1 st2 h
    rw [eventsLoop, eventsLoop]
    by_cases hn : e.name = exceptionEventName
    · rw [if_pos hn, if_pos hn]
      generalize (((attrGet e.attributes keyExceptionType).map
        AttributeValue.stringVal).getD [] : GoStr) = T
      generalize (((attrGet e.attributes keyExceptionMessage).map
        AttributeValue.stringVal).getD [] : GoStr) = M
      generalize (((attrGet e.attributes keyExceptionStacktrace).map
        AttributeValue.stringVal).getD [] : GoStr) = S
      have hpe := parseException_erase T M S lang st1 st2
      rcases ha : parseException T M S lang st1 with _ | ⟨p1, s1⟩ <;>
        rcases hb : parseException T M S lang st2 with _ | ⟨p2, s2⟩
      · simp only [ha, hb]
      · rw [ha, hb] at hpe; simp at hpe
      · rw [ha, hb] at hpe; simp at hpe
      · simp only [ha, hb]
        rw [ha, hb] at hpe
        simp at hpe
        exact ih _ _ s1 s2
          (by rw [eraseList_append, eraseList_append, h, hpe])
    · rw [if_neg hn, if_neg hn]
      exact ih acc1 acc2 st1 st2 h

/-- Erase the ids inside an optional cause record. -/
def eraseCause (c : Option CauseData) : Option CauseData :=
  c.map fun cd => ⟨eraseList cd.exceptions⟩

/-- The erased outcome of `causePart` does not depend on the id state. -/
lemma causePart_erase (span : Span) (attrs : AttrMap) (res : Resource)
    (st1 st2 : IdState) :
    (causePart span attrs res st1).map (fun p => (p.1, eraseCause p.2.1)) =
    (causePart span attrs res st2).map (fun p => (p.1, eraseCause p.2.1)) := by
  rw [causePart, causePart]
  by_cases hany : (span.events.any fun e => e.name = exceptionEventName) = true
  · rw [if_pos hany, if_pos hany]
    generalize (((attrGet res.attributes keyTelemetrySDKLanguage).map
      AttributeValue.stringVal).getD [] : GoStr) = L
    have hev := eventsLoop_erase L span.events [] [] st1 st2 rfl
    rcases ha : eventsLoop L st1 span.events [] with _ | ⟨x1, s1⟩ <;>
      rcases hb : eventsLoop L st2 span.events [] with _ | ⟨x2, s2⟩
    · simp only [ha, hb]
    · rw [ha, hb] at hev; simp at hev
    · rw [ha, hb] at hev; simp at hev
    · simp only [ha, hb]
      rw [ha, hb] at hev
      simp at hev
      simp [eraseCause, hev]
  · rw [if_neg hany, if_neg hany]
    rcases fallbackScan span.status.message [] attrs with ⟨msg, filt⟩
    by_cases hm : msg ≠ []
    · simp [hm, eraseCause, freshId, eraseList, eraseExc]
    · simp [hm]

/-- Erase the generated ids from a `makeCause` outcome, keeping the flags,
the filtered attributes, the success/panic distinction, and the full cause
structure minus id values. -/
def eraseOut (o : Option (MakeCauseResult × IdState)) :
    Option (Bool × Bool × Bool × AttrMap × Option CauseData) :=
  o.map fun p =>
    (p.1.isError, p.1.isFault, p.1.isThrottle, p.1.filtered, eraseCause p.1.cause)

/-- Claim C9: `makeCause` is deterministic modulo identifier generation —
two invocations on the same (span, attributes, resource) input, with any two
id-generator states, agree on flags, filtered attributes, panic behaviour,
and the entire cause structure up to the freshly generated identifier
values. -/
theorem claim_c9_deterministic (span : Span) (attributes : AttrMap)
    (resource : Resource) (st1 st2 : IdState) :
    eraseOut (makeCause span attributes resource st1) =
    eraseOut (makeCause span attributes resource st2) := by
  rw [makeCause, makeCause]
  by_cases herr : span.status.code = StatusCode.error
  · rw [if_pos herr, if_pos herr]
    have hcp := causePart_erase span attributes resource st1 st2
    rcases ha : causePart span attributes resource st1 with _ | ⟨f1, c1, s1⟩ <;>
      rcases hb : causePart span attributes resource st2 with _ | ⟨f2, c2, s2⟩
    · simp only [ha, hb]
    · rw [ha, hb] at hcp; simp at hcp
    · rw [ha, hb] at hcp; simp at hcp
    · simp only [ha, hb]
      rw [ha, hb] at hcp
      simp at hcp
      rcases httpFlags span with ⟨e, f, t⟩
      simp [eraseOut, hcp.1, hcp.2]
  · rw [if_neg herr, if_neg herr]
    simp [eraseOut]

end XRayCause
